import Mathlib

/-!
Verification of the graph workflow engine (`app/engine/graph.py`,
`app/engine/registry.py`, `app/main.py`).

The state record is a Python dict from string keys to JSON-like values; we
embed it as an insertion-ordered association list.  Node step functions are
arbitrary state transformers.  The run loop of `run_graph` counts `steps`
upward and exits when `current is None or steps >= max_steps`; we mirror it
with a structurally decreasing fuel argument kept in lockstep with the
`steps` counter (`fuel = max_steps.toNat - steps` at every call), so every
definition is executable and reducible.
-/

/-- JSON-like values stored in the workflow state (Python objects).
`strList` covers the list-of-node-names value of the execution log. -/
inductive Value where
  | null
  | bool (b : Bool)
  | int (n : Int)
  | str (s : String)
  | strList (l : List String)
deriving DecidableEq

/-- Numeric view: Python treats `bool` as a number (`True == 1`). -/
def Value.asNum : Value → Option Int
  | .bool b => some (if b then 1 else 0)
  | .int n => some n
  | _ => none

/-- Python `==` on embedded values: numeric cross-type equality between
`bool` and `int`, structural equality otherwise, `False` across
incomparable types (never an error). -/
def pyEq (a b : Value) : Bool :=
  match a.asNum, b.asNum with
  | some m, some n => m == n
  | _, _ => a == b

/-- Lexicographic comparison of string lists (Python list ordering). -/
def cmpStrList : List String → List String → Ordering
  | [], [] => .eq
  | [], _ :: _ => .lt
  | _ :: _, [] => .gt
  | a :: as, b :: bs =>
    match compare a b with
    | .eq => cmpStrList as bs
    | o => o

/-- Python ordering between two values: numbers (including booleans) are
mutually ordered, strings with strings, lists with lists; every other pair
(`None` with anything, string with number, ...) raises `TypeError`,
embedded as `none`. -/
def pyCmp (a b : Value) : Option Ordering :=
  match a.asNum, b.asNum with
  | some m, some n => some (compare m n)
  | _, _ =>
    match a, b with
    | .str s, .str t => some (compare s t)
    | .strList s, .strList t => some (cmpStrList s t)
    | _, _ => none

/-- Association-list lookup (Python `dict` read). -/
def findAssoc {β : Type} : List (String × β) → String → Option β
  | [], _ => none
  | (k, v) :: rest, key => if k == key then some v else findAssoc rest key

/-- Association-list update (Python `dict` assignment: replaces in place,
keeping insertion order, or appends a fresh key at the end). -/
def setAssoc {β : Type} : List (String × β) → String → β → List (String × β)
  | [], key, v => [(key, v)]
  | (k, w) :: rest, key, v =>
    if k == key then (key, v) :: rest else (k, w) :: setAssoc rest key v

/-- The mutable workflow state: a Python dict from string to value. -/
abbrev State := List (String × Value)

/-- Python `state.get(key)`: `None` when the key is absent. -/
def State.get (s : State) (k : String) : Value :=
  (findAssoc s k).getD .null

/-- Python `state[key] = v`. -/
def State.set (s : State) (k : String) (v : Value) : State :=
  setAssoc s k v

/-- Python `key in state`. -/
def State.containsKey (s : State) (k : String) : Bool :=
  (findAssoc s k).isSome

/-- Failures of `_evaluate_condition` (`ValueError` / `TypeError`). -/
inductive EvalError where
  | missingKey
  | typeMismatch (op : String)
  | unsupportedOperator (op : String)
deriving DecidableEq

/-- Ordering comparison inside `_evaluate_condition`: Python evaluates
`left <op> value` and raises `TypeError` when the operands are not mutually
ordered. -/
def pyOrdTest (a b : Value) (op : String) (test : Ordering → Bool) :
    Except EvalError Bool :=
  match pyCmp a b with
  | none => .error (.typeMismatch op)
  | some o => .ok (test o)

/-- Embedding of `_evaluate_condition(state, spec)` from `app/engine/graph.py`: reads
`spec["key"]` (error when missing), reads `state.get(key)` (null sentinel
when absent) and applies the operator to `(left, spec["value"])`. -/
def evaluateCondition (state : State) (key : Option String) (op : String)
    (value : Value) : Except EvalError Bool :=
  match key with
  | none => .error .missingKey
  | some k =>
    let left := State.get state k
    if op == "==" then .ok (pyEq left value)
    else if op == "!=" then .ok (!pyEq left value)
    else if op == ">" then pyOrdTest left value op (fun o => o == .gt)
    else if op == "<" then pyOrdTest left value op (fun o => o == .lt)
    else if op == ">=" then pyOrdTest left value op (fun o => !(o == .lt))
    else if op == "<=" then pyOrdTest left value op (fun o => !(o == .gt))
    else .error (.unsupportedOperator op)

/-- A node step implementation: current state in, new state out. -/
abbrev NodeFn := State → State

/-- An outgoing transition rule: a direct edge to a node name, or a
conditional spec dict whose branch targets may be the terminate sentinel
(`none`, Python `None`). -/
inductive Edge where
  | direct (target : String)
  | conditional (key : Option String) (op : String) (value : Value)
      (trueTarget falseTarget : Option String)

/-- The `Graph` dataclass of `app/engine/graph.py`. -/
structure Graph where
  graph_id : String
  nodes : List (String × NodeFn)
  edges : List (String × Edge)
  start_node : String
  max_steps : Int := 100

/-- The `RunResult` dataclass. -/
structure RunResult where
  final_state : State
  log : List String

/-- Runtime failures of `run_graph` (raised Python exceptions). -/
inductive RunError where
  | unknownNode (name : String)
  | evalError (e : EvalError)
deriving DecidableEq

/-- Snapshot of the loop variables of `run_graph` when its `while` loop
exits: the post-loop `state`, `log`, `steps` counter and `current`. -/
structure LoopOut where
  state : State
  log : List String
  steps : Nat
  current : Option String

/-- The `while current is not None and steps < max_steps` loop of
`run_graph`.  `fuel` is the remaining step budget `max_steps - steps`; it
is decremented exactly when the source increments `steps`, so `fuel = 0`
exactly models `steps >= max_steps`.  Each iteration resolves the current
node (error when absent), runs its step, appends the node name to the log,
then follows the edge: no edge entry breaks out of the loop, a direct edge
continues at the target, a conditional edge evaluates its condition on the
post-step state and continues at the selected branch target (`none` being
the terminate sentinel). -/
def runLoop (g : Graph) :
    Nat → Option String → State → List String → Nat → Except RunError LoopOut
  | _, none, state, log, steps => .ok ⟨state, log, steps, none⟩
  | 0, some c, state, log, steps => .ok ⟨state, log, steps, some c⟩
  | fuel + 1, some c, state, log, steps =>
    match findAssoc g.nodes c with
    | none => .error (.unknownNode c)
    | some fn =>
      match findAssoc g.edges c with
      | none => .ok ⟨fn state, log ++ [c], steps, some c⟩
      | some (.direct t) => runLoop g fuel (some t) (fn state) (log ++ [c]) (steps + 1)
      | some (.conditional key op value tt ft) =>
        match evaluateCondition (fn state) key op value with
        | .error e => .error (.evalError e)
        | .ok b =>
          runLoop g fuel (if b then tt else ft) (fn state) (log ++ [c]) (steps + 1)

/-- Embedding of `run_graph(graph, initial_state)`: runs the loop from `start_node` with
a copy of the initial state, then adds the `_warning` marker when
`steps >= max_steps` and the `_execution_log` field, and returns the
`RunResult`. -/
def run_graph (g : Graph) (initial_state : State) : Except RunError RunResult :=
  match runLoop g g.max_steps.toNat (some g.start_node) initial_state [] 0 with
  | .error e => .error e
  | .ok out =>
    .ok ⟨State.set
        (if g.max_steps ≤ (out.steps : Int) then
          State.set out.state "_warning"
            (.str ("Stopped after reaching max_steps=" ++ toString g.max_steps))
        else out.state)
        "_execution_log" (.strList out.log), out.log⟩

/-- The tool registry's backing dict `_tools` (`app/engine/registry.py`). -/
abbrev ToolRegistry := List (String × NodeFn)

/-- Failure of `ToolRegistry.get` (`KeyError`). -/
inductive RegError where
  | notFound (name : String)
deriving DecidableEq

/-- Embedding of `ToolRegistry.register(name, fn)`: inserts or overwrites. -/
def ToolRegistry.register (r : ToolRegistry) (name : String) (fn : NodeFn) :
    ToolRegistry :=
  setAssoc r name fn

/-- Embedding of `ToolRegistry.get(name)`: raises `KeyError` when absent. -/
def ToolRegistry.get (r : ToolRegistry) (name : String) :
    Except RegError NodeFn :=
  match findAssoc r name with
  | none => .error (.notFound name)
  | some fn => .ok fn

/-- The `EdgeSpec.type` literal in `app/main.py` (`Literal["normal", "conditional"]`). -/
inductive EdgeType where
  | normal
  | conditional
deriving DecidableEq

/-- The `NodeSpec` request model. -/
structure NodeSpec where
  name : String
  tool_name : String
deriving DecidableEq

/-- The `EdgeSpec` request model.  Pydantic collapses `Optional[Optional[str]]`
to `Optional[str]`, so an absent target and a null (terminate-sentinel)
target are both `none`; likewise `condition_value : Any` is Python `None`
(here `Value.null`) both when absent and when explicitly null. -/
structure EdgeSpec where
  source : String
  type : EdgeType := .normal
  target : Option String := none
  condition_key : Option String := none
  condition_op : Option String := none
  condition_value : Value := .null
  true_target : Option String := none
  false_target : Option String := none
deriving DecidableEq

/-- The `GraphCreateRequest` request model. -/
structure GraphCreateRequest where
  nodes : List NodeSpec
  edges : List EdgeSpec
  start_node : String
  max_steps : Int := 100
deriving DecidableEq

/-- Construction-time failures of `build_graph_from_request`
(`HTTPException(400)`). -/
inductive BuildError where
  | toolNotRegistered (tool node : String)
  | normalEdgeMissingTarget (source : String)
  | conditionalEdgeInvalid (source : String)
  | conditionalEdgeNoTarget (source : String)
deriving DecidableEq

/-- The node loop of `build_graph_from_request`: resolves every node's tool
in the registry (failing on a `KeyError`) and builds the name-to-callable
dict. -/
def buildNodes (registry : ToolRegistry) :
    List NodeSpec → List (String × NodeFn) → Except BuildError (List (String × NodeFn))
  | [], acc => .ok acc
  | n :: rest, acc =>
    match ToolRegistry.get registry n.tool_name with
    | .error _ => .error (.toolNotRegistered n.tool_name n.name)
    | .ok fn => buildNodes registry rest (setAssoc acc n.name fn)

/-- One iteration of the edge loop of `build_graph_from_request`: a normal
edge must carry a target; a conditional edge must carry `condition_key`,
`condition_op`, a non-null `condition_value`, and at least one branch
target. -/
def buildEdge (acc : List (String × Edge)) (e : EdgeSpec) :
    Except BuildError (List (String × Edge)) :=
  match e.type with
  | .normal =>
    match e.target with
    | none => .error (.normalEdgeMissingTarget e.source)
    | some t => .ok (setAssoc acc e.source (.direct t))
  | .conditional =>
    if e.condition_key = none ∨ e.condition_op = none ∨ e.condition_value = .null then
      .error (.conditionalEdgeInvalid e.source)
    else if e.true_target = none ∧ e.false_target = none then
      .error (.conditionalEdgeNoTarget e.source)
    else
      .ok (setAssoc acc e.source
        (.conditional e.condition_key (e.condition_op.getD "==") e.condition_value
          e.true_target e.false_target))

/-- The edge loop of `build_graph_from_request`. -/
def buildEdges : List EdgeSpec → List (String × Edge) → Except BuildError (List (String × Edge))
  | [], acc => .ok acc
  | e :: rest, acc =>
    match buildEdge acc e with
    | .error err => .error err
    | .ok acc' => buildEdges rest acc'

/-- Embedding of `build_graph_from_request(req)` from `app/main.py`: resolves nodes,
validates and builds edges, then assembles the `Graph` with the requested
start node and step bound.  No validation relates `start_node` to the node
dict.  The fresh `uuid4` identifier is a parameter. -/
def build_graph_from_request (registry : ToolRegistry) (req : GraphCreateRequest)
    (graph_id : String) : Except BuildError Graph :=
  match buildNodes registry req.nodes [] with
  | .error err => .error err
  | .ok nodes =>
    match buildEdges req.edges [] with
    | .error err => .error err
    | .ok edges =>
      .ok ⟨graph_id, nodes, edges, req.start_node, req.max_steps⟩

/-- Replays a trace: applies, in order, the step function of each named
node to the running state; `none` when some trace entry names no node. -/
def statesAlong (g : Graph) (s : State) : List String → Option State
  | [] => some s
  | c :: rest =>
    match findAssoc g.nodes c with
    | none => none
    | some fn => statesAlong g (fn s) rest

/-! ## Association-list lemmas -/

theorem findAssoc_setAssoc_self {β : Type} (m : List (String × β)) (k : String)
    (v : β) : findAssoc (setAssoc m k v) k = some v := by
  induction m with
  | nil => simp [setAssoc, findAssoc]
  | cons p rest ih =>
    obtain ⟨k', w⟩ := p
    by_cases h : k' = k
    · subst h
      simp [setAssoc, findAssoc]
    · simp [setAssoc, findAssoc, h, ih]

theorem findAssoc_setAssoc_ne {β : Type} (m : List (String × β)) (k k' : String)
    (v : β) (h : k' ≠ k) : findAssoc (setAssoc m k v) k' = findAssoc m k' := by
  have h2 : ¬(k = k') := fun e => h e.symm
  induction m with
  | nil => simp [setAssoc, findAssoc, h2]
  | cons p rest ih =>
    obtain ⟨k₀, w⟩ := p
    by_cases h0 : k₀ = k
    · subst h0
      simp [setAssoc, findAssoc, h2]
    · simp [setAssoc, findAssoc, h0, ih]

theorem State.get_set_self (s : State) (k : String) (v : Value) :
    State.get (State.set s k v) k = v := by
  simp [State.get, State.set, findAssoc_setAssoc_self]

theorem State.get_set_ne (s : State) (k k' : String) (v : Value) (h : k' ≠ k) :
    State.get (State.set s k v) k' = State.get s k' := by
  simp [State.get, State.set, findAssoc_setAssoc_ne s k k' v h]

theorem State.containsKey_set_self (s : State) (k : String) (v : Value) :
    State.containsKey (State.set s k v) k = true := by
  simp [State.containsKey, State.set, findAssoc_setAssoc_self]

theorem State.containsKey_set_ne (s : State) (k k' : String) (v : Value)
    (h : k' ≠ k) :
    State.containsKey (State.set s k v) k' = State.containsKey s k' := by
  simp [State.containsKey, State.set, findAssoc_setAssoc_ne s k k' v h]

theorem State.get_of_not_containsKey (s : State) (k : String)
    (h : State.containsKey s k = false) : State.get s k = .null := by
  unfold State.containsKey at h
  unfold State.get
  cases hf : findAssoc s k with
  | none => rfl
  | some v => rw [hf] at h; simp at h

/-! ## Replay lemmas -/

theorem statesAlong_append (g : Graph) (s : State) (l₁ l₂ : List String) :
    statesAlong g s (l₁ ++ l₂) =
      (statesAlong g s l₁).bind (fun s' => statesAlong g s' l₂) := by
  induction l₁ generalizing s with
  | nil => simp [statesAlong]
  | cons c rest ih =>
    simp only [List.cons_append, statesAlong]
    cases findAssoc g.nodes c with
    | none => simp
    | some fn => simp [ih]

/-! ## Run-loop lemmas -/

theorem runLoop_log_le (g : Graph) (fuel : Nat) :
    ∀ (cur : Option String) (state : State) (log : List String) (steps : Nat)
      (out : LoopOut), runLoop g fuel cur state log steps = .ok out →
      out.log.length ≤ log.length + fuel := by
  induction fuel with
  | zero =>
    intro cur state log steps out h
    cases cur with
    | none =>
      simp only [runLoop, Except.ok.injEq] at h
      subst h; simp
    | some c =>
      simp only [runLoop, Except.ok.injEq] at h
      subst h; simp
  | succ fuel ih =>
    intro cur state log steps out h
    cases cur with
    | none =>
      simp only [runLoop, Except.ok.injEq] at h
      subst h; simp
    | some c =>
      cases hn : findAssoc g.nodes c with
      | none => simp [runLoop, hn] at h
      | some fn =>
        cases he : findAssoc g.edges c with
        | none =>
          simp only [runLoop, hn, he, Except.ok.injEq] at h
          subst h
          simp only [List.length_append, List.length_cons, List.length_nil]
          omega
        | some e =>
          cases e with
          | direct t =>
            simp only [runLoop, hn, he] at h
            have hb := ih (some t) (fn state) (log ++ [c]) (steps + 1) out h
            simp only [List.length_append, List.length_cons, List.length_nil] at hb
            omega
          | conditional key op value tt ft =>
            cases hev : evaluateCondition (fn state) key op value with
            | error er => simp [runLoop, hn, he, hev] at h
            | ok b =>
              simp only [runLoop, hn, he, hev] at h
              have hb := ih (if b then tt else ft) (fn state) (log ++ [c])
                (steps + 1) out h
              simp only [List.length_append, List.length_cons, List.length_nil] at hb
              omega

theorem runLoop_replay (g : Graph) (init : State) (fuel : Nat) :
    ∀ (cur : Option String) (state : State) (log : List String) (steps : Nat)
      (out : LoopOut), runLoop g fuel cur state log steps = .ok out →
      statesAlong g init log = some state →
      statesAlong g init out.log = some out.state := by
  induction fuel with
  | zero =>
    intro cur state log steps out h hrep
    cases cur with
    | none =>
      simp only [runLoop, Except.ok.injEq] at h
      subst h; exact hrep
    | some c =>
      simp only [runLoop, Except.ok.injEq] at h
      subst h; exact hrep
  | succ fuel ih =>
    intro cur state log steps out h hrep
    cases cur with
    | none =>
      simp only [runLoop, Except.ok.injEq] at h
      subst h; exact hrep
    | some c =>
      cases hn : findAssoc g.nodes c with
      | none => simp [runLoop, hn] at h
      | some fn =>
        have hrep' : statesAlong g init (log ++ [c]) = some (fn state) := by
          rw [statesAlong_append, hrep]
          simp [statesAlong, hn]
        cases he : findAssoc g.edges c with
        | none =>
          simp only [runLoop, hn, he, Except.ok.injEq] at h
          subst h; exact hrep'
        | some e =>
          cases e with
          | direct t =>
            simp only [runLoop, hn, he] at h
            exact ih (some t) (fn state) (log ++ [c]) (steps + 1) out h hrep'
          | conditional key op value tt ft =>
            cases hev : evaluateCondition (fn state) key op value with
            | error er => simp [runLoop, hn, he, hev] at h
            | ok b =>
              simp only [runLoop, hn, he, hev] at h
              exact ih (if b then tt else ft) (fn state) (log ++ [c])
                (steps + 1) out h hrep'

/-! ## Concrete graphs and requests for the testable scenarios -/

/-- Step that writes its own node name with value `true` (Scenario A). -/
def addSelf (name : String) : NodeFn := fun s => State.set s name (.bool true)

/-- Step that increments the `count` field (Scenarios B and C). -/
def incCountFn : NodeFn := fun s =>
  State.set s "count" (.int ((Value.asNum (State.get s "count")).getD 0 + 1))

/-- Step that writes `stop := 1`. -/
def stopFn : NodeFn := fun s => State.set s "stop" (.int 1)

/-- Scenario A: linear graph `a → b → c`, `c` without an outgoing edge. -/
def gA : Graph :=
  { graph_id := "A"
    nodes := [("a", addSelf "a"), ("b", addSelf "b"), ("c", addSelf "c")]
    edges := [("a", .direct "b"), ("b", .direct "c")]
    start_node := "a" }

/-- Scenario B with `max_steps = 3`: self-loop on `a` with conditional
`count >= 3 → terminate else a`; the explicit termination coincides with
the step bound. -/
def gB3 : Graph :=
  { graph_id := "B3"
    nodes := [("a", incCountFn)]
    edges := [("a", .conditional (some "count") ">=" (.int 3) none (some "a"))]
    start_node := "a"
    max_steps := 3 }

/-- Scenario C: same self-loop, condition `count >= 10` never satisfied,
`max_steps = 5`. -/
def gC : Graph :=
  { graph_id := "C"
    nodes := [("a", incCountFn)]
    edges := [("a", .conditional (some "count") ">=" (.int 10) none (some "a"))]
    start_node := "a"
    max_steps := 5 }

/-- An unconditional cycle `a → a` with no reachable terminate sentinel. -/
def gCycle : Graph :=
  { graph_id := "cycle"
    nodes := [("a", addSelf "a")]
    edges := [("a", .direct "a")]
    start_node := "a"
    max_steps := 5 }

/-- Scenario D: the edge out of `a` targets node `x`, absent from `nodes`. -/
def gD : Graph :=
  { graph_id := "D"
    nodes := [("a", addSelf "a")]
    edges := [("a", .direct "x")]
    start_node := "a"
    max_steps := 5 }

/-! ## C1 — termination within the step bound -/

/-- C1: for every graph (cyclic ones included) and every initial state,
`run_graph` is a total function (the Lean embedding terminates by
construction), and on success the number of node executions — the length
of the returned trace — is at most the graph's step bound `max_steps`. -/
theorem run_graph_terminates_within_bound (g : Graph) (init : State)
    (r : RunResult) (hpos : 0 ≤ g.max_steps) (h : run_graph g init = .ok r) :
    (r.log.length : Int) ≤ g.max_steps := by
  cases hl : runLoop g g.max_steps.toNat (some g.start_node) init [] 0 with
  | error e => simp [run_graph, hl] at h
  | ok out =>
    simp only [run_graph, hl, Except.ok.injEq] at h
    subst h
    have hb := runLoop_log_le g g.max_steps.toNat (some g.start_node) init [] 0
      out hl
    simp only [List.length_nil, Nat.zero_add] at hb
    simp only []
    omega

/-- Witness for C1 at the unconditional cycle `gCycle` (bound 5): the run
completes with a trace of length 5. -/
theorem run_graph_terminates_within_bound_witness :
    ∃ r, run_graph gCycle [] = .ok r ∧ (r.log.length : Int) ≤ gCycle.max_steps :=
  ⟨_, rfl, run_graph_terminates_within_bound gCycle [] _ (by decide) rfl⟩

/-! ## C2 — the warning marker -/

/-- C2 counterexample: on `gB3` the run terminates through the explicit
terminate-sentinel branch (the loop exits with `current = none`, trace
`[a, a, a]`, exactly as in Scenario B), yet because that final transition
is also the `max_steps`-th one, the final state carries the `_warning`
marker — contradicting the claim that a terminate-sentinel run never
does. -/
theorem warning_iff_aborted_counterexample :
    ∃ out r,
      runLoop gB3 3 (some "a") [("count", Value.int 0)] [] 0 = .ok out ∧
      out.current = none ∧ out.log = ["a", "a", "a"] ∧
      run_graph gB3 [("count", Value.int 0)] = .ok r ∧
      r.final_state.containsKey "_warning" = true :=
  ⟨_, _, rfl, rfl, rfl, rfl, rfl⟩

/-- C2 amended: provided the loop's own final state does not already carry
a `_warning` key, the final state of a successful run contains the warning
marker iff the loop's step counter reached the bound
(`steps >= max_steps`).  A run ending strictly before the bound — via the
sentinel or a missing edge — carries no marker, a run truncated at the
bound does, and so does a run whose explicit sentinel termination is
itself the `max_steps`-th transition. -/
theorem warning_iff_steps_reached_bound (g : Graph) (init : State)
    (out : LoopOut) (r : RunResult)
    (hl : runLoop g g.max_steps.toNat (some g.start_node) init [] 0 = .ok out)
    (hw : out.state.containsKey "_warning" = false)
    (h : run_graph g init = .ok r) :
    r.final_state.containsKey "_warning" = true ↔ g.max_steps ≤ (out.steps : Int) := by
  simp only [run_graph, hl, Except.ok.injEq] at h
  subst h
  by_cases hc : g.max_steps ≤ (out.steps : Int)
  · simp only [hc, if_true]
    rw [State.containsKey_set_ne _ _ _ _ (by decide)]
    rw [State.containsKey_set_self]
    simp [hc]
  · simp only [hc, if_false]
    rw [State.containsKey_set_ne _ _ _ _ (by decide)]
    rw [hw]
    simp [hc]

/-- Witness for the amended C2 at Scenario C (`gC`, bound 5, condition
never satisfied): the run is truncated after 5 executions and the final
state carries the warning marker. -/
theorem warning_iff_steps_reached_bound_witness :
    ∃ out r,
      runLoop gC 5 (some "a") [("count", Value.int 0)] [] 0 = .ok out ∧
      run_graph gC [("count", Value.int 0)] = .ok r ∧
      out.log.length = 5 ∧ out.current = some "a" ∧
      r.final_state.containsKey "_warning" = true :=
  ⟨_, _, rfl, rfl, rfl, rfl,
    (warning_iff_steps_reached_bound gC [("count", Value.int 0)] _ _ rfl
      (by decide) rfl).mpr (by decide)⟩

/-! ## C3 — the terminate sentinel at construction -/

/-- Request with a normal edge whose target is the terminate sentinel
(JSON null, indistinguishable from an absent target). -/
def reqNormalNoTarget : GraphCreateRequest :=
  { nodes := [], edges := [{ source := "a" }], start_node := "a" }

/-- Request with a fully-specified conditional edge whose two branch
targets are both the terminate sentinel (JSON null). -/
def reqCondBothNone : GraphCreateRequest :=
  { nodes := []
    edges := [{ source := "a", type := .conditional, condition_key := some "k",
                condition_op := some "==", condition_value := .int 1 }]
    start_node := "a" }

/-- C3 counterexample: the request layer identifies the terminate sentinel
with a structurally absent target, so a normal edge targeting the sentinel
and a conditional edge whose branch targets are both the sentinel are
each rejected by `build_graph_from_request` — not accepted as the claim
states. -/
theorem terminate_sentinel_construction_counterexample :
    build_graph_from_request [] reqNormalNoTarget "gid" =
      .error (.normalEdgeMissingTarget "a") ∧
    build_graph_from_request [] reqCondBothNone "gid" =
      .error (.conditionalEdgeNoTarget "a") :=
  ⟨rfl, rfl⟩

/-- Registry binding the tool `t` to a step that writes `stop := 1`. -/
def regStop : ToolRegistry := [("t", stopFn)]

/-- Request with a conditional edge whose true branch is the terminate
sentinel and whose false branch names node `a`. -/
def reqCondOneNone : GraphCreateRequest :=
  { nodes := [{ name := "a", tool_name := "t" }]
    edges := [{ source := "a", type := .conditional,
                condition_key := some "stop", condition_op := some "==",
                condition_value := .int 1, false_target := some "a" }]
    start_node := "a" }

/-- C3 amended: the terminate sentinel (Python `None`) is not expressible
as an explicit edge target at request-level construction — a normal edge
with a null target and a conditional edge with both branch targets null
are rejected, the sentinel being identified with structural absence.  A
conditional edge with exactly one null branch target is accepted, and
following that branch at run time ends the run as an explicit end: the
loop exits with `current = none` after one step and the final state
carries no step-bound warning. -/
theorem terminate_sentinel_single_branch_accepted :
    ∃ g, build_graph_from_request regStop reqCondOneNone "gid" = .ok g ∧
      ∃ out, runLoop g g.max_steps.toNat (some g.start_node) [] [] 0 = .ok out ∧
        out.current = none ∧ out.steps = 1 ∧ out.log = ["a"] ∧
        ∃ r, run_graph g [] = .ok r ∧
          r.final_state.containsKey "_warning" = false :=
  ⟨_, rfl, _, rfl, rfl, rfl, rfl, _, rfl, rfl⟩

/-! ## C4 — trace correctness -/

/-- C4: on every successful run, the final state's `_execution_log` field
holds exactly the returned trace, and the trace replays: applying, in
order, the step function of each node named by the trace to the initial
state reproduces the loop's final state (so trace entry `i` is exactly the
node whose step produced the state after step `i`, and the trace length is
the number of node executions) — the final state agrees with the replayed
state on every key except the two engine-added fields. -/
theorem run_graph_trace_correct (g : Graph) (init : State) (r : RunResult)
    (h : run_graph g init = .ok r) :
    State.get r.final_state "_execution_log" = .strList r.log ∧
    ∃ s, statesAlong g init r.log = some s ∧
      ∀ k, k ≠ "_execution_log" → k ≠ "_warning" →
        State.get r.final_state k = State.get s k := by
  cases hl : runLoop g g.max_steps.toNat (some g.start_node) init [] 0 with
  | error e => simp [run_graph, hl] at h
  | ok out =>
    simp only [run_graph, hl, Except.ok.injEq] at h
    subst h
    constructor
    · exact State.get_set_self _ _ _
    · refine ⟨out.state, ?_, ?_⟩
      · exact runLoop_replay g init g.max_steps.toNat (some g.start_node)
          init [] 0 out hl rfl
      · intro k hk1 hk2
        rw [State.get_set_ne _ _ _ _ hk1]
        by_cases hc : g.max_steps ≤ (out.steps : Int)
        · simp only [hc, if_true]
          rw [State.get_set_ne _ _ _ _ hk2]
        · simp only [hc, if_false]

/-- Witness for C4 at Scenario A: the linear graph `a → b → c` run on the
empty state yields trace `[a, b, c]` and final state
`{a: true, b: true, c: true}` plus the execution-log field. -/
theorem run_graph_trace_correct_witness :
    ∃ r, run_graph gA [] = .ok r ∧ r.log = ["a", "b", "c"] ∧
      r.final_state =
        [("a", .bool true), ("b", .bool true), ("c", .bool true),
         ("_execution_log", .strList ["a", "b", "c"])] ∧
      State.get r.final_state "_execution_log" = .strList r.log :=
  ⟨_, rfl, rfl, rfl, (run_graph_trace_correct gA [] _ rfl).1⟩

/-! ## C5 — the start-node invariant -/

/-- Request whose `start_node` names no node at all. -/
def reqGhostStart : GraphCreateRequest :=
  { nodes := [], edges := [], start_node := "ghost" }

/-- C5 counterexample: `build_graph_from_request` performs no validation of
`start_node` — a request whose start node names no node constructs
successfully, so the claimed invariant `start_node ∈ keys(nodes)` does not
hold of every constructed graph. -/
theorem start_node_invariant_counterexample :
    ∃ g, build_graph_from_request [] reqGhostStart "gid" = .ok g ∧
      findAssoc g.nodes g.start_node = none :=
  ⟨_, rfl, rfl⟩

/-- C5 amended: construction does not check the start node; a graph whose
`start_node` is absent from `nodes` is built successfully, and the failure
surfaces only at run time, when `run_graph` immediately fails with
`UnknownNode` naming the start node. -/
theorem start_node_unchecked_fails_at_run :
    ∃ g, build_graph_from_request [] reqGhostStart "gid" = .ok g ∧
      g.start_node = "ghost" ∧
      run_graph g [] = .error (.unknownNode "ghost") :=
  ⟨_, rfl, rfl, rfl⟩

/-! ## C6 — ordering operators on unordered operands -/

/-- C6: for every state, key, literal value and ordering operator, if the
value read for the key (the null sentinel when absent) and the literal are
not mutually ordered under Python's ordering, the condition evaluator
fails with `TypeMismatch` instead of returning a boolean. -/
theorem ordering_type_mismatch (state : State) (k : String) (op : String)
    (value : Value)
    (hop : op = ">" ∨ op = "<" ∨ op = ">=" ∨ op = "<=")
    (hord : pyCmp (State.get state k) value = none) :
    evaluateCondition state (some k) op value = .error (.typeMismatch op) := by
  rcases hop with h | h | h | h <;> subst h <;>
    simp [evaluateCondition, pyOrdTest, hord]

/-- Witness for C6 at Scenario E: comparing the string state value of
`score` with `>=` against the numeric literal `80` fails with
`TypeMismatch`. -/
theorem ordering_type_mismatch_witness :
    evaluateCondition [("score", Value.str "high")] (some "score") ">="
      (.int 80) = .error (.typeMismatch ">=") :=
  ordering_type_mismatch [("score", Value.str "high")] "score" ">="
    (.int 80) (Or.inr (Or.inr (Or.inl rfl))) rfl

/-! ## C7 — missing conditional fields fail construction -/

theorem buildEdge_missing_fields (acc : List (String × Edge)) (e : EdgeSpec)
    (ht : e.type = .conditional)
    (hm : e.condition_key = none ∨ e.condition_op = none ∨
      e.condition_value = .null) :
    buildEdge acc e = .error (.conditionalEdgeInvalid e.source) := by
  simp only [buildEdge, ht]
  rw [if_pos hm]

theorem buildEdges_missing_fields (e : EdgeSpec)
    (ht : e.type = .conditional)
    (hm : e.condition_key = none ∨ e.condition_op = none ∨
      e.condition_value = .null) :
    ∀ (es : List EdgeSpec), e ∈ es → ∀ acc, ∃ err, buildEdges es acc = .error err := by
  intro es
  induction es with
  | nil => intro he; cases he
  | cons x rest ih =>
    intro he acc
    rcases List.mem_cons.mp he with h | hmem
    · subst h
      exact ⟨.conditionalEdgeInvalid e.source,
        by simp [buildEdges, buildEdge_missing_fields acc e ht hm]⟩
    · cases hx : buildEdge acc x with
      | error err => exact ⟨err, by simp [buildEdges, hx]⟩
      | ok acc' =>
        obtain ⟨err, hb⟩ := ih hmem acc'
        exact ⟨err, by simp [buildEdges, hx, hb]⟩

/-- C7: a graph-construction request containing a conditional edge that
omits `condition_key`, `condition_op` or `condition_value` always fails
construction with an invalid-construction error — no graph is built, so
the missing field can never be first detected during execution of a graph
built through this path. -/
theorem conditional_missing_fields_fail_construction (registry : ToolRegistry)
    (req : GraphCreateRequest) (gid : String) (e : EdgeSpec)
    (he : e ∈ req.edges) (ht : e.type = .conditional)
    (hm : e.condition_key = none ∨ e.condition_op = none ∨
      e.condition_value = .null) :
    ∃ err, build_graph_from_request registry req gid = .error err := by
  cases hn : buildNodes registry req.nodes [] with
  | error err => exact ⟨err, by simp [build_graph_from_request, hn]⟩
  | ok nodes =>
    obtain ⟨err, hb⟩ := buildEdges_missing_fields e ht hm req.edges he []
    exact ⟨err, by simp [build_graph_from_request, hn, hb]⟩

/-- Conditional edge spec omitting `condition_key`. -/
def edgeMissingKey : EdgeSpec :=
  { source := "a", type := .conditional, condition_op := some "==",
    condition_value := .int 1, true_target := some "a" }

/-- Request containing `edgeMissingKey`. -/
def reqMissingCondKey : GraphCreateRequest :=
  { nodes := [], edges := [edgeMissingKey], start_node := "a" }

/-- Witness for C7: a request whose single conditional edge omits
`condition_key` fails construction. -/
theorem conditional_missing_fields_fail_construction_witness :
    ∃ err, build_graph_from_request [] reqMissingCondKey "gid" = .error err :=
  conditional_missing_fields_fail_construction [] reqMissingCondKey "gid"
    edgeMissingKey (List.mem_cons_self _ _) rfl (Or.inl rfl)

/-! ## C8 — unknown node aborts the run -/

/-- C8: whenever the run loop reaches, with step budget remaining, a
current node name that is absent from the graph's node mapping, it fails
with `UnknownNode` naming that node — the run aborts and no final state is
delivered (the result is the error, not a `RunResult`). -/
theorem unknown_node_fails (g : Graph) (c : String) (fuel : Nat)
    (state : State) (log : List String) (steps : Nat)
    (h : findAssoc g.nodes c = none) :
    runLoop g (fuel + 1) (some c) state log steps = .error (.unknownNode c) := by
  simp [runLoop, h]

/-- Witness for C8 at Scenario D: graph `gD` routes `a → x` with `x` not in
`nodes`; the loop fails with `UnknownNode x`, and the whole run of `gD`
fails the same way. -/
theorem unknown_node_fails_witness :
    runLoop gD 4 (some "x") [("a", Value.bool true)] ["a"] 1 =
      .error (.unknownNode "x") ∧
    run_graph gD [] = .error (.unknownNode "x") :=
  ⟨unknown_node_fails gD "x" 3 [("a", Value.bool true)] ["a"] 1 rfl, rfl⟩

/-! ## C9 — registry register/resolve semantics -/

/-- C9: resolving a name immediately after `register(name, fn)` returns
`fn`; a second `register` with the same name silently replaces the earlier
binding, the later implementation being returned thereafter; and
`resolve(name)` fails with `NotFound` exactly when no registration for
`name` exists. -/
theorem registry_register_resolve (r : ToolRegistry) (name : String)
    (f f' : NodeFn) :
    ToolRegistry.get (ToolRegistry.register r name f) name = .ok f ∧
    ToolRegistry.get (ToolRegistry.register (ToolRegistry.register r name f)
      name f') name = .ok f' ∧
    (ToolRegistry.get r name = .error (.notFound name) ↔
      findAssoc r name = none) := by
  refine ⟨?_, ?_, ?_, ?_⟩
  · simp [ToolRegistry.get, ToolRegistry.register, findAssoc_setAssoc_self]
  · simp [ToolRegistry.get, ToolRegistry.register, findAssoc_setAssoc_self]
  · intro h
    cases hf : findAssoc r name with
    | none => rfl
    | some fn => simp [ToolRegistry.get, hf] at h
  · intro h
    simp [ToolRegistry.get, h]

/-! ## C10 — absent key under equality operators -/

/-- C10: evaluating a condition whose key is absent from the state with
operator `==` or `!=` never fails: the absent key reads as the null
sentinel, `==` returns `true` exactly when the literal is null, and `!=`
returns the negation of that. -/
theorem absent_key_equality_never_fails (s : State) (k : String) (v : Value)
    (h : State.containsKey s k = false) :
    State.get s k = .null ∧
    evaluateCondition s (some k) "==" v = .ok (v == .null) ∧
    evaluateCondition s (some k) "!=" v = .ok (!(v == .null)) := by
  have hg : State.get s k = .null := State.get_of_not_containsKey s k h
  have hpe : pyEq (State.get s k) v = (v == .null) := by
    rw [hg]
    cases v <;> simp [pyEq, Value.asNum]
  refine ⟨hg, ?_, ?_⟩
  · simp [evaluateCondition, hpe]
  · simp [evaluateCondition, hpe]

/-- Witness for C10: state `{x: 1}` lacks key `k`; comparing it against the
non-null literal `5` yields `false` under `==` and `true` under `!=`,
without an error. -/
theorem absent_key_equality_never_fails_witness :
    State.get [("x", Value.int 1)] "k" = .null ∧
    evaluateCondition [("x", Value.int 1)] (some "k") "==" (.int 5) =
      .ok (Value.int 5 == .null) ∧
    evaluateCondition [("x", Value.int 1)] (some "k") "!=" (.int 5) =
      .ok (!(Value.int 5 == .null)) :=
  absent_key_equality_never_fails [("x", Value.int 1)] "k" (.int 5) (by decide)
